import Mathlib

/-!
# Verification of the yaegi static type-checking core (interp/typecheck.go)

Shallow embedding of the type-checking and constant-coercion engine.
The checker functions (`assignExpr`, `addressExpr`, `shift`, `comparison`,
`binaryExpr`, `convertUntyped`, `representable`, `convertConst`,
`representableConst`, `bitlen`) are translated directly from
`src/interp/typecheck.go`.  The supporting vocabulary that the source pulls
from elsewhere in the repository (the `itype` descriptor and its predicate
methods, the `node` structure, the `action` enumeration) and from the Go
standard library (`go/constant`, `reflect.Kind`) is modelled from the spec's
data-model section and from the documented behaviour of those libraries, as
noted on each definition.
-/

set_option maxRecDepth 4096

namespace Interp

/-- Modelled from the Go standard library: `reflect.Kind` — the concrete
backing shape of a resolved type.  Only the kinds the checker inspects are
carried.  `interfaceK` also stands in for the backing of the nil type. -/
inductive RKind where
  | bool
  | int | int8 | int16 | int32 | int64
  | uint | uint8 | uint16 | uint32 | uint64 | uintptr
  | float32 | float64
  | complex64 | complex128
  | array | chan | func | interfaceK | map | ptr | slice
  | string | struct
deriving DecidableEq

/-- Modelled from the Go standard library: the numeric ordinal of each
`reflect.Kind` value, used by `convertUntyped` to compare kinds with `<`. -/
def kindOrd : RKind → Nat
  | .bool => 1
  | .int => 2 | .int8 => 3 | .int16 => 4 | .int32 => 5 | .int64 => 6
  | .uint => 7 | .uint8 => 8 | .uint16 => 9 | .uint32 => 10 | .uint64 => 11
  | .uintptr => 12
  | .float32 => 13 | .float64 => 14
  | .complex64 => 15 | .complex128 => 16
  | .array => 17 | .chan => 18 | .func => 19 | .interfaceK => 20 | .map => 21
  | .ptr => 22 | .slice => 23
  | .string => 24 | .struct => 25

/-- Modelled from the Go standard library: `reflect.Kind.String`. -/
def kindString : RKind → String
  | .bool => "bool"
  | .int => "int" | .int8 => "int8" | .int16 => "int16"
  | .int32 => "int32" | .int64 => "int64"
  | .uint => "uint" | .uint8 => "uint8" | .uint16 => "uint16"
  | .uint32 => "uint32" | .uint64 => "uint64" | .uintptr => "uintptr"
  | .float32 => "float32" | .float64 => "float64"
  | .complex64 => "complex64" | .complex128 => "complex128"
  | .array => "array" | .chan => "chan" | .func => "func"
  | .interfaceK => "interface" | .map => "map" | .ptr => "ptr"
  | .slice => "slice" | .string => "string" | .struct => "struct"

/-- Modelled from the spec (§3): is-integer over the concrete backing type
(the repository helper `isInt` is not under `src/`): all signed and unsigned
integer kinds, `uintptr` included. -/
def isInt : RKind → Bool
  | .int | .int8 | .int16 | .int32 | .int64
  | .uint | .uint8 | .uint16 | .uint32 | .uint64 | .uintptr => true
  | _ => false

/-- Modelled from the spec (§3): is-float (repository helper not under `src/`). -/
def isFloat : RKind → Bool
  | .float32 | .float64 => true
  | _ => false

/-- Modelled from the spec (§3): is-complex (repository helper not under `src/`). -/
def isComplex : RKind → Bool
  | .complex64 | .complex128 => true
  | _ => false

/-- Modelled from the spec (§3): is-numeric = integer, float or complex
(repository helper not under `src/`). -/
def isNumber (k : RKind) : Bool := isInt k || isFloat k || isComplex k

/-- Modelled from the spec (§3): is-string (repository helper not under `src/`). -/
def isString : RKind → Bool
  | .string => true
  | _ => false

/-- Modelled from the spec (§3): is-boolean (repository helper not under `src/`). -/
def isBoolean : RKind → Bool
  | .bool => true
  | _ => false

/-- Modelled from the Go standard library: the kinds of `go/constant.Value`. -/
inductive CKind where
  | unknown | bool | string | int | float | complex
deriving DecidableEq

/-- Modelled from the Go standard library: `go/constant.Value`, the exact
arbitrary-precision representation of an untyped literal (spec §3).  Float
values are carried as exact rationals; Complex as a pair of exact rationals. -/
inductive CVal where
  | unknown
  | bool (b : Bool)
  | str (s : String)
  | int (i : Int)
  | float (q : ℚ)
  | complex (re im : ℚ)
deriving DecidableEq

namespace CVal

/-- Modelled from the Go standard library: `Value.Kind`. -/
def kind : CVal → CKind
  | .unknown => .unknown
  | .bool _ => .bool
  | .str _ => .string
  | .int _ => .int
  | .float _ => .float
  | .complex _ _ => .complex

/-- Modelled from the Go standard library: `constant.ToInt` — the value
converted to an Int if it is representable as one, otherwise Unknown. -/
def toInt : CVal → CVal
  | .int i => .int i
  | .float q => if q.den = 1 then .int q.num else .unknown
  | .complex re im => if im = 0 ∧ re.den = 1 then .int re.num else .unknown
  | _ => .unknown

/-- Modelled from the Go standard library: `constant.ToFloat`. -/
def toFloat : CVal → CVal
  | .int i => .float (i : ℚ)
  | .float q => .float q
  | .complex re im => if im = 0 then .float re else .unknown
  | _ => .unknown

/-- Modelled from the Go standard library: `constant.ToComplex`. -/
def toComplex : CVal → CVal
  | .int i => .complex (i : ℚ) 0
  | .float q => .complex q 0
  | .complex re im => .complex re im
  | _ => .unknown

/-- Modelled from the Go standard library: `constant.Sign`; for complex
values the result is 0 iff the value is 0, otherwise nonzero; Unknown gives 1.
Non-numeric arguments (a run-time panic in Go) are mapped to 1 so that the
zero test never fires on them. -/
def sign : CVal → Int
  | .int i => Int.sign i
  | .float q => Int.sign q.num
  | .complex re im => if re = 0 ∧ im = 0 then 0 else 1
  | _ => 1

/-- Fuelled binary length of a natural number; the fuel `n` is always
sufficient since the bit length of `n` is at most `n` for every `n ≥ 1`. -/
def natBitsAux : Nat → Nat → Nat
  | 0, _ => 0
  | _ + 1, 0 => 0
  | fuel + 1, n + 1 => natBitsAux fuel ((n + 1) / 2) + 1

/-- Number of bits required to represent `n` in binary (`0` needs `0` bits). -/
def natBits (n : Nat) : Nat := natBitsAux n n

/-- Modelled from the Go standard library: `constant.BitLen` — the number of
bits required for the absolute value of an Int; 0 for Unknown. -/
def bitLen : CVal → Nat
  | .int i => natBits i.natAbs
  | _ => 0

/-- Modelled from the Go standard library: the exactness flag of
`constant.Int64Val` (the value fits in a signed 64-bit integer). -/
def int64Ok : CVal → Bool
  | .int i => decide (-(2 ^ 63) ≤ i) && decide (i < 2 ^ 63)
  | _ => false

/-- Modelled from the Go standard library: the exactness flag of
`constant.Uint64Val` (the value fits in an unsigned 64-bit integer). -/
def uint64Ok : CVal → Bool
  | .int i => decide (0 ≤ i) && decide (i < 2 ^ 64)
  | _ => false

/-- Modelled from the Go standard library: `Value.ExactString`, the exact
textual rendering used in diagnostics. -/
def exactString : CVal → String
  | .unknown => "unknown"
  | .bool b => if b then "true" else "false"
  | .str s => "\"" ++ s ++ "\""
  | .int i => toString i
  | .float q =>
      if q.den = 1 then toString q.num
      else toString q.num ++ "/" ++ toString (q.den : Int)
  | .complex re im =>
      "(" ++ toString re.num ++ " + " ++ toString im.num ++ "i)"

/-- Modelled from the Go standard library: `constant.BoolVal` (panic on
non-bool arguments is mapped to `false`; unreachable on checked paths). -/
def boolVal : CVal → Bool
  | .bool b => b
  | _ => false

/-- Modelled from the Go standard library: `constant.StringVal`. -/
def stringVal : CVal → String
  | .str s => s
  | _ => ""

/-- The integer payload of an Int value; 0 for Unknown (the "undefined"
result Go documents for an inexact `Int64Val`/`Uint64Val` of Unknown). -/
def intOf : CVal → Int
  | .int i => i
  | _ => 0

/-- The rational payload of a Float value; 0 otherwise. -/
def floatOf : CVal → ℚ
  | .float q => q
  | _ => 0

/-- Modelled from the Go standard library: `constant.Real`. -/
def realOf : CVal → ℚ
  | .int i => (i : ℚ)
  | .float q => q
  | .complex re _ => re
  | _ => 0

/-- Modelled from the Go standard library: `constant.Imag`. -/
def imagOf : CVal → ℚ
  | .complex _ im => im
  | _ => 0

end CVal

/-- Overflow of IEEE-754 binary32 rounding (round to nearest, ties to even):
`math.IsInf(constant.Float32Val x, 0)` holds exactly when the magnitude
reaches the rounding threshold `2^128 − 2^103`. -/
def float32IsInf (q : ℚ) : Bool := decide ((2 : ℚ) ^ 128 - 2 ^ 103 ≤ |q|)

/-- Overflow of IEEE-754 binary64 rounding (round to nearest, ties to even):
`math.IsInf(constant.Float64Val x, 0)` holds exactly when the magnitude
reaches the rounding threshold `2^1024 − 2^970`. -/
def float64IsInf (q : ℚ) : Bool := decide ((2 : ℚ) ^ 1024 - 2 ^ 970 ≤ |q|)

/-- Modelled from the spec (§3): the category of a resolved type descriptor
(the repository's `itype.cat`, not under `src/`).  `arrayT` is the
fixed-size array category, `sliceT` the nilable array-reference category. -/
inductive Cat where
  | boolT | stringT
  | intT | int8T | int16T | int32T | int64T
  | uintT | uint8T | uint16T | uint32T | uint64T | uintptrT
  | float32T | float64T | complex64T | complex128T
  | arrayT | sliceT | mapT | chanT | funcT | ptrT
  | interfaceT | structT | nilT
deriving DecidableEq

/-- Modelled from the spec (§3): the resolved type descriptor (`itype`, not
under `src/`): a category, the untyped flag, and the size of the method set
(consulted only by the interface branch of `convertUntyped`; a literal always
has an empty method set). -/
structure IType where
  cat : Cat
  untyped : Bool := false
  nmethods : Nat := 0
deriving DecidableEq

namespace IType

/-- Modelled from the spec (§3): the concrete backing type of a descriptor
(`itype.TypeOf`, not under `src/`).  The nil type is backed by the empty
interface shape. -/
def TypeOf (t : IType) : RKind :=
  match t.cat with
  | .boolT => .bool
  | .stringT => .string
  | .intT => .int | .int8T => .int8 | .int16T => .int16
  | .int32T => .int32 | .int64T => .int64
  | .uintT => .uint | .uint8T => .uint8 | .uint16T => .uint16
  | .uint32T => .uint32 | .uint64T => .uint64 | .uintptrT => .uintptr
  | .float32T => .float32 | .float64T => .float64
  | .complex64T => .complex64 | .complex128T => .complex128
  | .arrayT => .array | .sliceT => .slice | .mapT => .map
  | .chanT => .chan | .funcT => .func | .ptrT => .ptr
  | .interfaceT => .interfaceK | .structT => .struct
  | .nilT => .interfaceK

/-- Modelled from the spec (§3): the category's printable name, the base of
`itype.id` (not under `src/`). -/
def catName : Cat → String
  | .boolT => "bool" | .stringT => "string"
  | .intT => "int" | .int8T => "int8" | .int16T => "int16"
  | .int32T => "int32" | .int64T => "int64"
  | .uintT => "uint" | .uint8T => "uint8" | .uint16T => "uint16"
  | .uint32T => "uint32" | .uint64T => "uint64" | .uintptrT => "uintptr"
  | .float32T => "float32" | .float64T => "float64"
  | .complex64T => "complex64" | .complex128T => "complex128"
  | .arrayT => "array" | .sliceT => "slice" | .mapT => "map"
  | .chanT => "chan" | .funcT => "func" | .ptrT => "ptr"
  | .interfaceT => "interface {}" | .structT => "struct"
  | .nilT => "nil"

/-- Modelled from the spec (§6): `itype.id`, the type's name as printed in
diagnostics (not under `src/`). -/
def id (t : IType) : String :=
  (if t.untyped then "untyped " else "") ++ catName t.cat

/-- Modelled from the spec (§3): the default-type derivation (untyped
bool → bool, untyped rune/int → int, untyped float → float64, untyped
complex → complex128, untyped string → string); a concrete type is its own
default (`itype.defaultType`, not under `src/`). -/
def defaultType (t : IType) : IType :=
  if t.untyped then
    match t.cat with
    | .boolT => { cat := .boolT }
    | .stringT => { cat := .stringT }
    | .intT => { cat := .intT }
    | .int32T => { cat := .intT }
    | .float32T => { cat := .float64T }
    | .float64T => { cat := .float64T }
    | .complex64T => { cat := .complex128T }
    | .complex128T => { cat := .complex128T }
    | c => { cat := c }
  else t

/-- Modelled from the spec (§3): is-nil — the descriptor is the nil type
(`itype.isNil`, not under `src/`). -/
def isNil (t : IType) : Bool := t.cat = .nilT

/-- Modelled from the spec (§3): has-nil — the category admits the nil value
(pointer, slice, map, channel, function, interface); `itype.hasNil` is not
under `src/`. -/
def hasNil (t : IType) : Bool :=
  match t.cat with
  | .ptrT | .sliceT | .mapT | .chanT | .funcT | .interfaceT => true
  | _ => false

/-- Modelled from the spec (§3, glossary): comparable — the category supports
`==`; slices, maps, functions and the bare nil type are not comparable
(`itype.comparable` is not under `src/`). -/
def comparable (t : IType) : Bool :=
  match t.cat with
  | .sliceT | .mapT | .funcT | .nilT => false
  | _ => true

/-- Modelled from the spec (§4.6): ordered — numeric or string category
(`itype.ordered` is not under `src/`). -/
def ordered (t : IType) : Bool :=
  isNumber t.TypeOf || isString t.TypeOf

/-- Modelled from the spec (§3): descriptor equality (`itype.equals`, not
under `src/`), as structural equality of the modelled descriptor. -/
def equals (a b : IType) : Bool := decide (a = b)

/-- Modelled from the spec (§3, glossary, §8): assignability
(`itype.assignableTo`, not under `src/`): equal types are mutually
assignable, everything is assignable to an interface, and the nil value is
assignable in at least one direction so that nil comparisons reach the
comparison-legality stage as §4.6/§8 describe. -/
def assignableTo (a b : IType) : Bool :=
  a.equals b || a.isNil || b.cat = .interfaceT

end IType

/-- `isInterface` as used by the source on a descriptor (helper not under
`src/`, modelled from the spec §3). -/
def isInterface (t : IType) : Bool := t.cat = .interfaceT

/-- `isArray` on a descriptor (helper not under `src/`): array or slice
category (the spec's "array" covers the array-reference category). -/
def isArrayI (t : IType) : Bool := t.cat = .arrayT || t.cat = .sliceT

/-- `isMap` on a descriptor (helper not under `src/`). -/
def isMapI (t : IType) : Bool := t.cat = .mapT

/-- `isChan` on a descriptor (helper not under `src/`). -/
def isChanI (t : IType) : Bool := t.cat = .chanT

/-- `isFunc` on a descriptor (helper not under `src/`). -/
def isFuncI (t : IType) : Bool := t.cat = .funcT

/-- `isPtr` on a descriptor (helper not under `src/`). -/
def isPtrI (t : IType) : Bool := t.cat = .ptrT

/-- Modelled from the spec (§3): the operator enumeration (`action`, not
under `src/`).  Following the spec's design note, each compound-assignment
operator carries an explicit base operator instead of the source's numeric
`a--` adjacency trick. -/
inductive Action where
  | aNop
  | aAssign
  | aAdd | aSub | aMul | aQuo | aRem
  | aAnd | aOr | aXor | aAndNot
  | aLand | aLor
  | aShl | aShr
  | aEqual | aNotEqual
  | aGreater | aGreaterEqual | aLower | aLowerEqual
  | aPos | aNeg | aBitNot | aNot | aRecv
  | aAddAssign | aSubAssign | aMulAssign | aQuoAssign | aRemAssign
  | aAndAssign | aOrAssign | aXorAssign | aAndNotAssign
  | aShlAssign | aShrAssign
deriving DecidableEq

namespace Action

/-- Modelled from the spec (§3): whether the operator is a compound
assignment (`isAssignAction`, not under `src/`). -/
def isAssignAction : Action → Bool
  | .aAddAssign | .aSubAssign | .aMulAssign | .aQuoAssign | .aRemAssign
  | .aAndAssign | .aOrAssign | .aXorAssign | .aAndNotAssign
  | .aShlAssign | .aShrAssign => true
  | _ => false

/-- Modelled from the spec (§9): the base operator of a compound assignment
(the source's `a--`), as an explicit mapping. -/
def base : Action → Action
  | .aAddAssign => .aAdd | .aSubAssign => .aSub | .aMulAssign => .aMul
  | .aQuoAssign => .aQuo | .aRemAssign => .aRem
  | .aAndAssign => .aAnd | .aOrAssign => .aOr | .aXorAssign => .aXor
  | .aAndNotAssign => .aAndNot
  | .aShlAssign => .aShl | .aShrAssign => .aShr
  | a => a

/-- Modelled from the spec (§6): the operator's printable name used by
`cfgErrorf` diagnostics. -/
def str : Action → String
  | .aNop => "nop" | .aAssign => "="
  | .aAdd => "+" | .aSub => "-" | .aMul => "*" | .aQuo => "/" | .aRem => "%"
  | .aAnd => "&" | .aOr => "|" | .aXor => "^" | .aAndNot => "&^"
  | .aLand => "&&" | .aLor => "||"
  | .aShl => "<<" | .aShr => ">>"
  | .aEqual => "==" | .aNotEqual => "!="
  | .aGreater => ">" | .aGreaterEqual => ">=" | .aLower => "<"
  | .aLowerEqual => "<="
  | .aPos => "+" | .aNeg => "-" | .aBitNot => "^" | .aNot => "!"
  | .aRecv => "<-"
  | .aAddAssign => "+=" | .aSubAssign => "-=" | .aMulAssign => "*="
  | .aQuoAssign => "/=" | .aRemAssign => "%="
  | .aAndAssign => "&=" | .aOrAssign => "|=" | .aXorAssign => "^="
  | .aAndNotAssign => "&^="
  | .aShlAssign => "<<=" | .aShrAssign => ">>="

end Action

/-- `isShiftAction` from `src/interp/typecheck.go`. -/
def isShiftAction : Action → Bool
  | .aShl | .aShr | .aShlAssign | .aShrAssign => true
  | _ => false

/-- `isComparisonAction` from `src/interp/typecheck.go`. -/
def isComparisonAction : Action → Bool
  | .aEqual | .aNotEqual | .aGreater | .aGreaterEqual
  | .aLower | .aLowerEqual => true
  | _ => false

/-- Modelled from the spec (§3): the syntactic form tag of a node, consumed
by the address-of and assignment checkers (not under `src/`). -/
inductive NKind where
  | parenExpr | selectorExpr | indexExpr | compositeLitExpr | identExpr
  | constDecl | otherKind
deriving DecidableEq

/-- The run-time value held in a node's constant-value slot
(`node.rval`, a `reflect.Value`): either a `go/constant.Value` payload
(`cval`) or an already-narrowed native Go value (`native`, which remembers
the kind it was narrowed to and its mathematical value; the exact rounded
bits of narrowed floats are immaterial to every checked property).  An
invalid `reflect.Value` is the absent case `Option.none` at the use sites. -/
inductive GoVal where
  | cval (c : CVal)
  | native (k : RKind) (c : CVal)
deriving DecidableEq

/-- Modelled from the spec (§3): the expression node.  Only the attributes
this core consumes are carried: the syntactic form tag, the operator kind,
the mutable resolved-type and constant-value slots, the ordered children,
the parent's form tag (consulted only to detect a constant declaration), and
the arity counts. -/
inductive Node where
  | mk (kind : NKind) (action : Action) (typ : IType) (rval : Option GoVal)
       (child : List Node) (ancKind : NKind) (nleft nright : Nat)

namespace Node

def kind : Node → NKind
  | .mk k _ _ _ _ _ _ _ => k

def action : Node → Action
  | .mk _ a _ _ _ _ _ _ => a

def typ : Node → IType
  | .mk _ _ t _ _ _ _ _ => t

def rval : Node → Option GoVal
  | .mk _ _ _ r _ _ _ _ => r

def child : Node → List Node
  | .mk _ _ _ _ c _ _ _ => c

def ancKind : Node → NKind
  | .mk _ _ _ _ _ anc _ _ => anc

def nleft : Node → Nat
  | .mk _ _ _ _ _ _ nl _ => nl

def nright : Node → Nat
  | .mk _ _ _ _ _ _ _ nr => nr

/-- Write the resolved-type slot (the source mutates `n.typ` in place). -/
def setTyp : Node → IType → Node
  | .mk k a _ r c anc nl nr, t => .mk k a t r c anc nl nr

/-- Write the constant-value slot (the source mutates `n.rval` in place). -/
def setRval : Node → Option GoVal → Node
  | .mk k a t _ c anc nl nr, r => .mk k a t r c anc nl nr

/-- Write the child list (pointer mutation of children in the source). -/
def setChild : Node → List Node → Node
  | .mk k a t r _ anc nl nr, c => .mk k a t r c anc nl nr

end Node

/-! ## Diagnostic messages

`cfgErrorf` attaches the node's source position externally (spec §6); only
the formatted message is modelled.  The trailing `%!(EXTRA string=.)` of the
comparison diagnostic reproduces Go's `fmt` rendering of the stray `"."`
argument in the source's `cfgErrorf` call. -/

def mismatchMsg (a b : IType) : String :=
  "invalid operation: mismatched types " ++ a.id ++ " and " ++ b.id

def opNotDefinedMsg (a : Action) (t : IType) : String :=
  "invalid operation: operator " ++ a.str ++ " not defined on " ++ t.id

def unknownOpMsg (a : Action) : String :=
  "invalid operation: unknown operator " ++ a.str

def cmpOpErrMsg (a : Action) (t : IType) : String :=
  opNotDefinedMsg a t ++ "%!(EXTRA string=.)"

def cannotUseMsg (s d : IType) : String :=
  "cannot use type " ++ s.id ++ " as type " ++ d.id ++ " in assignment"

def addrErrMsg (t : IType) : String :=
  "invalid operation: cannot take address of " ++ t.id

def shiftOfTypeMsg (t : IType) : String :=
  "invalid operation: shift of type " ++ t.id

def shiftCountMsg (t : IType) : String :=
  "invalid operation: shift count type " ++ t.id ++ ", must be integer"

def divZeroMsg : String := "invalid operation: division by zero"

def convErrMsg (n t : IType) : String :=
  "cannot convert " ++ n.id ++ " to " ++ t.id

def truncMsg (c : CVal) (t : RKind) : String :=
  c.exactString ++ " truncated to " ++ kindString t

def overflowMsg (c : CVal) (t : RKind) : String :=
  c.exactString ++ " overflows " ++ kindString t

def cannotConvertValMsg (c : CVal) (t : RKind) : String :=
  "cannot convert " ++ c.exactString ++ " to " ++ kindString t

/-- Out-of-range child access is a run-time panic in Go; it is modelled as
this distinguished diagnostic so the checkers stay total. -/
def panicMsg : String := "panic: runtime error: index out of range"

/-! ## The pure representability predicate (§4.10) -/

/-- `bitlen` from `src/interp/typecheck.go`: bit-width by kind; the
platform-default `int`/`uint`/`uintptr` kinds are 64-bit; kinds outside the
table give the Go array's zero value 0. -/
def bitlen : RKind → Nat
  | .int => 64 | .int8 => 8 | .int16 => 16 | .int32 => 32 | .int64 => 64
  | .uint => 64 | .uint8 => 8 | .uint16 => 16 | .uint32 => 32 | .uint64 => 64
  | .uintptr => 64
  | _ => 0

/-- `representableConst` from `src/interp/typecheck.go`: whether the constant
`c` fits losslessly into the concrete type `t`. -/
def representableConst (c : CVal) (t : RKind) : Bool :=
  if isInt t then
    let x := c.toInt
    if x.kind ≠ CKind.int then false
    else
      match t with
      | .int | .int8 | .int16 | .int32 | .int64 =>
          x.int64Ok && decide (x.bitLen ≤ bitlen t)
      | .uint | .uint8 | .uint16 | .uint32 | .uint64 | .uintptr =>
          x.uint64Ok && decide (x.bitLen ≤ bitlen t)
      | _ => false
  else if isFloat t then
    let x := c.toFloat
    if x.kind ≠ CKind.float then false
    else
      match t with
      | .float32 => !float32IsInf x.floatOf
      | .float64 => !float64IsInf x.floatOf
      | _ => false
  else if isComplex t then
    let x := c.toComplex
    if x.kind ≠ CKind.complex then false
    else
      match t with
      | .complex64 => !float32IsInf x.realOf && !float32IsInf x.imagOf
      | .complex128 => !float64IsInf x.realOf && !float64IsInf x.imagOf
      | _ => false
  else if isString t then c.kind = CKind.string
  else if isBoolean t then c.kind = CKind.bool
  else false

/-! ## Representability with diagnostics (§4.9) -/

/-- `representable` from `src/interp/typecheck.go`: skips silently when the
node carries no `constant.Value` payload; otherwise classifies the failure
diagnostic from the node's backing kind and the target kind. -/
def representable (n : Node) (t : RKind) : Option String :=
  match n.rval with
  | none => none
  | some (.native _ _) => none
  | some (.cval c) =>
      if representableConst c t then none
      else
        let typ := n.typ.TypeOf
        if isNumber typ && isNumber t then
          if !isInt typ && isInt t then some (truncMsg c t)
          else some (overflowMsg c t)
        else some (cannotConvertValMsg c t)

/-! ## Narrowing conversion (`convertConst`) -/

/-- Two's-complement wrap of `i` to a signed width of `bits` bits (the
behaviour of Go's low-bits narrowing `reflect.Value.Convert`). -/
def wrapSigned (i : Int) (bits : Nat) : Int :=
  let m : Int := 2 ^ bits
  let r := i % m
  if r < m / 2 then r else r - m

/-- `convertConst` from `src/interp/typecheck.go`: narrow a constant payload
to the native kind `t`.  The boolean result is the success flag; `false`
stands for the private sentinel `errCantConvert` raised by the default
branch.  Values that are not `constant.Value` payloads pass through
untouched, as in the source. -/
def convertConst (v : Option GoVal) (t : RKind) : Option GoVal × Bool :=
  match v with
  | some (.cval c) =>
      match t with
      | .bool => (some (.native t (.bool c.boolVal)), true)
      | .string => (some (.native t (.str c.stringVal)), true)
      | .int | .int8 | .int16 | .int32 | .int64 =>
          (some (.native t (.int (wrapSigned c.toInt.intOf (bitlen t)))), true)
      | .uint | .uint8 | .uint16 | .uint32 | .uint64 | .uintptr =>
          (some (.native t (.int (c.toInt.intOf % (2 : Int) ^ bitlen t))), true)
      | .float32 | .float64 =>
          (some (.native t (.float c.toFloat.floatOf)), true)
      | .complex64 | .complex128 =>
          (some (.native t (.complex c.realOf c.imagOf)), true)
      | _ => (some (.cval c), false)
  | x => (x, true)

/-! ## The untyped-constant coercion engine (§4.8) -/

/-- The shared tail of `convertUntyped` for constant-capable targets:
representability check, narrowing, then the node adopts `ityp`. -/
def convertStep (n : Node) (ityp : IType) (rtyp : RKind) (convErr : String) :
    Node × Option String :=
  match representable n rtyp with
  | some e => (n, some e)
  | none =>
      match convertConst n.rval rtyp with
      | (v, true) => ((n.setRval v).setTyp ityp, none)
      | (_, false) => (n, some convErr)

/-- `convertUntyped` from `src/interp/typecheck.go`: convert the untyped node
`n` toward the target type.  The absent target (a nil `*itype` in Go) is
`Option.none`.  Returns the (possibly mutated) node and an optional error. -/
def convertUntyped (n : Node) (otyp : Option IType) : Node × Option String :=
  match otyp with
  | none => (n, none)
  | some typ =>
      if !n.typ.untyped then (n, none)
      else
        let convErr := convErrMsg n.typ typ
        let ntyp := n.typ.TypeOf
        let ttyp := typ.TypeOf
        if typ.untyped then
          if isNumber ntyp && isNumber ttyp then
            if kindOrd ntyp < kindOrd ttyp then (n.setTyp typ, none)
            else (n, none)
          else if kindOrd ntyp ≠ kindOrd ttyp then (n, some convErr)
          else (n, none)
        else
          if typ.isNil && n.typ.isNil then (n.setTyp typ, none)
          else if isNumber ttyp || isString ttyp || isBoolean ttyp then
            convertStep n typ ttyp convErr
          else if isInterface typ then
            if n.typ.isNil then (n, none)
            else if decide (0 < n.typ.nmethods) then (n, some convErr)
            else convertStep n n.typ.defaultType ntyp convErr
          else if isArrayI typ || isMapI typ || isChanI typ || isFuncI typ
                  || isPtrI typ then
            if !n.typ.isNil then (n, some convErr) else (n, none)
          else (n, some convErr)

/-! ## Operator predicate dispatch (§4.1) -/

/-- `unaryOpPredicates` from `src/interp/typecheck.go`, as a closed mapping
(absent operators are the Go map's missing entries). -/
def unaryOpPredicates : Action → Option (RKind → Bool)
  | .aPos => some isNumber
  | .aNeg => some isNumber
  | .aBitNot => some isInt
  | .aNot => some isBoolean
  | _ => none

/-- `binaryOpPredicates` from `src/interp/typecheck.go`. -/
def binaryOpPredicates : Action → Option (RKind → Bool)
  | .aAdd => some fun t => isNumber t || isString t
  | .aSub => some isNumber
  | .aMul => some isNumber
  | .aQuo => some isNumber
  | .aRem => some isInt
  | .aAnd => some isInt
  | .aOr => some isInt
  | .aXor => some isInt
  | .aAndNot => some isInt
  | .aLand => some isBoolean
  | .aLor => some isBoolean
  | _ => none

/-- `typecheck.op` from `src/interp/typecheck.go`: dispatch an operand type
through a predicate table. -/
def opCheck (p : Action → Option (RKind → Bool)) (a : Action) (n c : Node)
    (t : RKind) : Option String :=
  match p a with
  | some pred => if !pred t then some (opNotDefinedMsg n.action c.typ) else none
  | none => some (unknownOpMsg n.action)

/-! ## Shift checker (§4.5) -/

/-- The default unsigned target `&itype{cat: uintT, name: "uint"}` built by
the shift checker. -/
def uintIType : IType := { cat := .uintT }

/-- `typecheck.shift` from `src/interp/typecheck.go`.  The untyped left
operand's constant slot is overwritten with its `ToInt` image before it is
validated.  A left operand whose slot holds no `constant.Value` (a run-time
panic at the source's type assertion) is left untouched and `v0` stays
absent, mirroring the fact that the assertion is never reached with a valid
outcome. -/
def shift (n : Node) : Node × Option String :=
  match n.child with
  | c0 :: c1 :: rest =>
      let t0 := c0.typ.TypeOf
      let t1 := c1.typ.TypeOf
      let v0 : Option CVal :=
        if c0.typ.untyped then
          match c0.rval with
          | some (.cval c) => some c.toInt
          | _ => none
        else none
      let c0 := match v0 with
        | some v => c0.setRval (some (.cval v))
        | none => c0
      let n := n.setChild (c0 :: c1 :: rest)
      if !((c0.typ.untyped && v0.isSome
            && decide ((v0.getD .unknown).kind = CKind.int)) || isInt t0) then
        (n, some (shiftOfTypeMsg c0.typ))
      else if c1.typ.untyped then
        match convertUntyped c1 (some uintIType) with
        | (c1, some _) =>
            (n.setChild (c0 :: c1 :: rest), some (shiftCountMsg c1.typ))
        | (c1, none) => (n.setChild (c0 :: c1 :: rest), none)
      else if isInt t1 then (n, none)
      else (n, some (shiftCountMsg c1.typ))
  | _ => (n, some panicMsg)

/-! ## Comparison checker (§4.6) -/

/-- The sign test performed by the division-by-zero check; reading a slot
that holds no `constant.Value` would panic in Go but is short-circuited away
on every reached path, so it is mapped to a nonzero sign. -/
def signOfRval : Option GoVal → Int
  | some (.cval c) => c.sign
  | _ => 1

/-- `typecheck.comparison` from `src/interp/typecheck.go`. -/
def comparison (n : Node) : Option String :=
  match n.child with
  | c0 :: c1 :: _ =>
      if !(c0.typ.assignableTo c1.typ) && !(c1.typ.assignableTo c0.typ) then
        some (mismatchMsg c0.typ c1.typ)
      else
        let ok :=
          match n.action with
          | .aEqual | .aNotEqual =>
              (c0.typ.comparable && c1.typ.comparable)
              || (c0.typ.isNil && c1.typ.hasNil)
              || (c1.typ.isNil && c0.typ.hasNil)
          | .aLower | .aLowerEqual | .aGreater | .aGreaterEqual =>
              c0.typ.ordered && c1.typ.ordered
          | _ => false
        if !ok then
          let typ := if c0.typ.isNil then c1.typ else c0.typ
          some (cmpOpErrMsg n.action typ)
        else none
  | _ => some panicMsg

/-! ## Binary checker (§4.7) -/

/-- `typecheck.binaryExpr` from `src/interp/typecheck.go`.  Both best-effort
coercions mutate the children even though their errors are discarded; the
division-by-zero test runs last, on the post-coercion children, and switches
on the original `n.action`. -/
def binaryExpr (n : Node) : Node × Option String :=
  match n.child with
  | c0 :: c1 :: rest =>
      let a := n.action
      let a := if a.isAssignAction then a.base else a
      if isShiftAction a then shift n
      else
        let c0 := (convertUntyped c0 (some c1.typ)).1
        let c1 := (convertUntyped c1 (some c0.typ)).1
        let n := n.setChild (c0 :: c1 :: rest)
        if isComparisonAction a then (n, comparison n)
        else if !(c0.typ.equals c1.typ) then
          (n, some (mismatchMsg c0.typ c1.typ))
        else
          let t0 := c0.typ.TypeOf
          match opCheck binaryOpPredicates a n c0 t0 with
          | some e => (n, some e)
          | none =>
              match n.action with
              | .aQuo | .aRem =>
                  if (c0.typ.untyped || isInt t0) && c1.typ.untyped
                      && decide (signOfRval c1.rval = 0) then
                    (n, some divZeroMsg)
                  else (n, none)
              | _ => (n, none)
  | _ => (n, some panicMsg)

/-! ## Assignment checker (§4.2) -/

/-- The result of `assignExpr`: the (possibly mutated) assignment node and
its two operands, plus the optional error. -/
structure AssignRes where
  n : Node
  dest : Node
  src : Node
  err : Option String

/-- `typecheck.assignExpr` from `src/interp/typecheck.go`.  For the plain
single assignment the destination's declared type is first forced to its
default type unless the assignment sits inside a constant declaration; an
untyped source is then coerced toward the destination type — or toward its
own default type when the destination is the nil type or an interface — and
the narrowed source must be assignable to the destination. -/
def assignExpr (n dest src : Node) : AssignRes :=
  if n.action = .aAssign then
    let dest := if n.ancKind = .constDecl then dest
                else dest.setTyp dest.typ.defaultType
    let r :=
      if src.typ.untyped then
        let typ := if dest.typ.isNil || isInterface dest.typ
                   then src.typ.defaultType else dest.typ
        convertUntyped src (some typ)
      else (src, none)
    match r with
    | (src, some e) => ⟨n, dest, src, some e⟩
    | (src, none) =>
        if !(src.typ.assignableTo dest.typ) then
          ⟨n, dest, src, some (cannotUseMsg src.typ dest.typ)⟩
        else ⟨n, dest, src, none⟩
  else if decide (1 < n.nleft) || decide (1 < n.nright) then
    ⟨n, dest, src,
      some ("assignment operation " ++ n.action.str
            ++ " requires single-valued expressions")⟩
  else
    let r := binaryExpr n
    ⟨r.1, dest, src, r.2⟩

/-! ## Address-of checker (§4.3) -/

/-- The unwrapping loop of `typecheck.addressExpr` from
`src/interp/typecheck.go`: parenthesization unwraps to the first child,
selection to the second, indexing to the (array- or map-typed) base;
composite literals and identifiers terminate successfully; anything else is
non-addressable.  A missing child (a Go panic) yields the distinguished
panic diagnostic. -/
def addrWalk : Node → Option String
  | .mk k _ t _ ch _ _ _ =>
      match k, ch with
      | .parenExpr, c :: _ => addrWalk c
      | .parenExpr, [] => some panicMsg
      | .selectorExpr, _ :: c :: _ => addrWalk c
      | .selectorExpr, _ => some panicMsg
      | .indexExpr, c :: _ =>
          if isArrayI c.typ || isMapI c.typ then addrWalk c
          else some (addrErrMsg t)
      | .indexExpr, [] => some panicMsg
      | .compositeLitExpr, _ => none
      | .identExpr, _ => none
      | _, _ => some (addrErrMsg t)

/-- `typecheck.addressExpr` from `src/interp/typecheck.go`. -/
def addressExpr (n : Node) : Option String :=
  match n.child with
  | c0 :: _ => addrWalk c0
  | [] => some panicMsg

/-! ## Spec-side reference definitions

These restate claims in the spec's own words, for comparison with the
definitions translated from the source. -/

/-- The spec's claimed acceptance range for an N-bit signed integer target:
`−2^(N−1) ≤ L ≤ 2^(N−1) − 1`. -/
def specSignedRepresentable (bits : Nat) (L : Int) : Prop :=
  -(2 ^ (bits - 1)) ≤ L ∧ L ≤ 2 ^ (bits - 1) - 1

/-- The spec's claimed acceptance range for an N-bit unsigned integer
target: `0 ≤ L ≤ 2^N − 1`. -/
def specUnsignedRepresentable (bits : Nat) (L : Int) : Prop :=
  0 ≤ L ∧ L ≤ 2 ^ bits - 1

/-- The claim's description of addressability (spec §4.3): repeatedly
unwrapping parenthesized expressions, selector expressions, and index
expressions whose indexed base is an array or a map reaches a composite
literal or an identifier. -/
inductive Addressable : Node → Prop where
  | composite (n : Node) : n.kind = .compositeLitExpr → Addressable n
  | ident (n : Node) : n.kind = .identExpr → Addressable n
  | paren (n c : Node) : n.kind = .parenExpr → n.child.head? = some c →
      Addressable c → Addressable n
  | sel (n c : Node) : n.kind = .selectorExpr → n.child.get? 1 = some c →
      Addressable c → Addressable n
  | index (n c : Node) : n.kind = .indexExpr → n.child.head? = some c →
      (isArrayI c.typ || isMapI c.typ) = true → Addressable c → Addressable n

/-! ## Concrete nodes used by the closed theorems -/

/-- The untyped integer descriptor. -/
def untypedInt : IType := { cat := .intT, untyped := true }

/-- The untyped float descriptor. -/
def untypedFloat : IType := { cat := .float64T, untyped := true }

/-- The untyped complex descriptor. -/
def untypedComplex : IType := { cat := .complex128T, untyped := true }

/-- The untyped nil descriptor: the provisional type of the nil literal. -/
def untypedNil : IType := { cat := .nilT, untyped := true }

/-- A leaf node carrying an untyped constant payload. -/
def constNode (t : IType) (c : CVal) : Node :=
  .mk .otherKind .aNop t (some (.cval c)) [] .otherKind 0 0

/-- A leaf identifier node of a concrete type, with no constant payload. -/
def identNode (t : IType) : Node :=
  .mk .identExpr .aNop t none [] .otherKind 0 0

/-- A binary expression node. -/
def binNode (a : Action) (c0 c1 : Node) : Node :=
  .mk .otherKind a untypedInt none [c0, c1] .otherKind 1 1

/-- `x / 0` where `x` has the concrete type `int` and the divisor is the
untyped constant `0`. -/
def divTypedByZero : Node :=
  binNode .aQuo (identNode { cat := .intT }) (constNode untypedInt (.int 0))

/-- `1 / 0` where both operands are untyped integer constants. -/
def divUntypedByZero : Node :=
  binNode .aQuo (constNode untypedInt (.int 1)) (constNode untypedInt (.int 0))

/-- The nil literal node. -/
def nilLitNode : Node := .mk .identExpr .aNop untypedNil none [] .otherKind 0 0

/-- An empty-interface descriptor. -/
def ifaceIType : IType := { cat := .interfaceT }

/-- An untyped float node holding the integral value `300`. -/
def float300Node : Node := constNode untypedFloat (.float 300)

/-! ## C1 — representability ranges -/

/-- C1: the claim states that an N-bit signed target accepts a literal L iff
`−2^(N−1) ≤ L ≤ 2^(N−1)−1`, so that the untyped constant 200 is *not*
representable in the 8-bit signed kind.  The code instead compares
`BitLen` (the bit length of the *absolute* value) against the full width, so
`representableConst` accepts 200, 128 and −129 for `int8` even though all
three lie outside the claimed signed range; the constant is then silently
wrapped by `convertConst`.  This contradicts the source's stated intent of
following go/types logic, where `var x int8 = 200` is an overflow error. -/
theorem representableConst_int8_accepts_200 :
    representableConst (CVal.int 200) RKind.int8 = true
    ∧ ¬ specSignedRepresentable 8 200
    ∧ representableConst (CVal.int 128) RKind.int8 = true
    ∧ ¬ specSignedRepresentable 8 128
    ∧ representableConst (CVal.int (-129)) RKind.int8 = true
    ∧ ¬ specSignedRepresentable 8 (-129)
    ∧ (convertConst (some (.cval (CVal.int 200))) RKind.int8).1
        = some (.native RKind.int8 (CVal.int (-56))) := by
  refine ⟨by rfl, ?_, by rfl, ?_, by rfl, ?_, by rfl⟩ <;>
    · unfold specSignedRepresentable
      decide

/-! ## C2 — division by an untyped zero divisor -/

/-- C2: the claim states the "division by zero" error fires for every
division whose divisor is an untyped constant zero, regardless of the
dividend's type.  In the code, `binaryExpr` first narrows the untyped
divisor toward the concrete dividend type, clearing its untyped flag, so the
subsequent zero test (`c1.typ.untyped && Sign == 0`) never fires for a
concrete-integer dividend: `x / 0` with `x : int` passes the check.  The
`isInt(t0)` disjunct of the source's condition is thereby unreachable, which
shows the check was intended to cover exactly this case.  The untyped
dividend case does error, as the second conjunct records. -/
theorem binaryExpr_divzero_typed_dividend_missed :
    (binaryExpr divTypedByZero).2 = none
    ∧ (binaryExpr divTypedByZero).1.child.get? 1
        = some (((constNode untypedInt (.int 0)).setRval
            (some (.native .int (.int 0)))).setTyp { cat := .intT })
    ∧ (binaryExpr divUntypedByZero).2 = some divZeroMsg := by
  exact ⟨by rfl, by rfl, by rfl⟩

/-! ## C8 — classification of representability failures -/

/-- C8 counterexample: the claim says the "truncated" diagnostic is produced
*exactly when a non-integral numeric value* is narrowed into an integer
target.  The code classifies by the node's static backing kind instead: the
untyped float node holding the *integral* value 300 (whose `ToInt` image is
a genuine integer constant) still gets the truncation diagnostic when
narrowed to `int8`, where the claimed rule would give an overflow. -/
theorem representable_truncates_integral_float :
    representable float300Node RKind.int8
      = some (truncMsg (CVal.float 300) RKind.int8)
    ∧ (CVal.toInt (CVal.float 300)).kind = CKind.int
    ∧ representableConst (CVal.float 300) RKind.int8 = false := by
  exact ⟨by rfl, by rfl, by rfl⟩

/-! ## C9 — the untyped flag after successful coercion -/

/-- C9 counterexample: the claim says every successful coercion with a
specified, non-untyped target clears the node's untyped flag.  Converting
the untyped nil literal toward a (non-untyped) interface target succeeds by
the early return of the interface branch, which leaves the node — and its
untyped flag — untouched. -/
theorem convertUntyped_nil_to_interface_keeps_untyped :
    ifaceIType.untyped = false
    ∧ (convertUntyped nilLitNode (some ifaceIType)).2 = none
    ∧ (convertUntyped nilLitNode (some ifaceIType)).1.typ.untyped = true := by
  exact ⟨by rfl, by rfl, by rfl⟩

/-! ## Accessor lemmas for the node mutators -/

@[simp]
theorem Node.typ_setTyp (n : Node) (t : IType) : (n.setTyp t).typ = t := by
  cases n
  rfl

@[simp]
theorem Node.typ_setRval (n : Node) (v : Option GoVal) :
    (n.setRval v).typ = n.typ := by
  cases n
  rfl

@[simp]
theorem Node.rval_setRval (n : Node) (v : Option GoVal) :
    (n.setRval v).rval = v := by
  cases n
  rfl

@[simp]
theorem Node.rval_setTyp (n : Node) (t : IType) :
    (n.setTyp t).rval = n.rval := by
  cases n
  rfl

@[simp]
theorem Node.child_setTyp (n : Node) (t : IType) :
    (n.setTyp t).child = n.child := by
  cases n
  rfl

@[simp]
theorem Node.child_setRval (n : Node) (v : Option GoVal) :
    (n.setRval v).child = n.child := by
  cases n
  rfl

@[simp]
theorem Node.child_setChild (n : Node) (c : List Node) :
    (n.setChild c).child = c := by
  cases n
  rfl

@[simp]
theorem Node.action_setChild (n : Node) (c : List Node) :
    (n.setChild c).action = n.action := by
  cases n
  rfl

@[simp]
theorem Node.typ_setChild (n : Node) (c : List Node) :
    (n.setChild c).typ = n.typ := by
  cases n
  rfl

/-- A descriptor with the untyped flag set has a default type with the flag
cleared (spec §3: the default type materializes a concrete type). -/
theorem IType.untyped_defaultType (t : IType) (h : t.untyped = true) :
    t.defaultType.untyped = false := by
  obtain ⟨c, u, m⟩ := t
  simp only at h
  subst h
  cases c <;> rfl

/-! ## C8 (amended) — classification by the node's static kind -/

/-- C8 amended: when a constant fails the representability check, the
diagnostic is "truncated" exactly when the *node's backing kind* is a
non-integer numeric kind and the target kind is integer; any other
numeric-to-numeric mismatch is an "overflows" diagnostic; every non-numeric
mismatch is the generic "cannot convert". -/
theorem representable_classification (n : Node) (t : RKind) (c : CVal)
    (hr : n.rval = some (.cval c)) (hf : representableConst c t = false) :
    ((isNumber n.typ.TypeOf && isNumber t) = true →
        (!isInt n.typ.TypeOf && isInt t) = true →
        representable n t = some (truncMsg c t))
    ∧ ((isNumber n.typ.TypeOf && isNumber t) = true →
        (!isInt n.typ.TypeOf && isInt t) = false →
        representable n t = some (overflowMsg c t))
    ∧ ((isNumber n.typ.TypeOf && isNumber t) = false →
        representable n t = some (cannotConvertValMsg c t)) := by
  simp only [representable, hr, hf]
  refine ⟨fun h1 h2 => by simp [h1, h2], fun h1 h2 => by simp [h1, h2],
    fun h1 => by simp [h1]⟩

/-- Witness for the amended C8 classification: an untyped complex constant
(non-integer backing kind) narrowed into `int8` gets the truncation
diagnostic. -/
theorem representable_classification_witness :
    representable (constNode untypedComplex (.complex 3 1)) RKind.int8
      = some (truncMsg (.complex 3 1) RKind.int8) :=
  (representable_classification (constNode untypedComplex (.complex 3 1))
    RKind.int8 (.complex 3 1) rfl (by rfl)).1 (by rfl) (by rfl)

/-- A nil-typed descriptor is backed by the interface shape, which is not a
constant-capable (numeric/string/boolean) kind. -/
theorem nil_typeof_not_const (t : IType) (h : t.isNil = true) :
    (isNumber t.TypeOf || isString t.TypeOf || isBoolean t.TypeOf) = false := by
  have hcat : t.cat = Cat.nilT := by
    simpa [IType.isNil] using h
  simp [IType.TypeOf, hcat, isNumber, isInt, isFloat, isComplex, isString,
    isBoolean]

/-! ## C9 (amended) — what a successful coercion does to the node -/

/-- C9 amended: on success with a specified non-untyped target, the node's
resulting type has the untyped flag cleared — except when the source is an
untyped nil accepted by the interface or nilable-category early returns,
which leave the node entirely untouched.  For constant-capable
(numeric/string/boolean) targets the constant payload is narrowed in place
by `convertConst` and the node adopts the target type. -/
theorem convertUntyped_success_untyped_flag (n : Node) (typ : IType)
    (ht : typ.untyped = false)
    (hs : (convertUntyped n (some typ)).2 = none) :
    ((convertUntyped n (some typ)).1.typ.untyped = false
      ∨ (n.typ.isNil = true ∧ (convertUntyped n (some typ)).1 = n))
    ∧ ((isNumber typ.TypeOf || isString typ.TypeOf || isBoolean typ.TypeOf)
          = true →
        n.typ.untyped = true →
        (convertUntyped n (some typ)).1
          = (n.setRval (convertConst n.rval typ.TypeOf).1).setTyp typ) := by
  by_cases hu : n.typ.untyped = true
  case neg =>
    rw [Bool.not_eq_true] at hu
    exact ⟨Or.inl (by simp [convertUntyped, hu]),
      fun _ hnu => absurd hnu (by simp [hu])⟩
  case pos =>
  by_cases h1 : (typ.isNil && n.typ.isNil) = true
  · have hnil : typ.isNil = true := by
      have h1' := h1
      simp only [Bool.and_eq_true] at h1'
      exact h1'.1
    refine ⟨Or.inl (by simp [convertUntyped, hu, ht, h1]), fun h2 _ => ?_⟩
    rw [nil_typeof_not_const typ hnil] at h2
    cases h2
  · rw [Bool.not_eq_true] at h1
    by_cases h2 : (isNumber typ.TypeOf || isString typ.TypeOf
        || isBoolean typ.TypeOf) = true
    · cases hrep : representable n typ.TypeOf with
      | some e =>
          exact absurd hs (by
            simp [convertUntyped, hu, ht, h1, h2, convertStep, hrep])
      | none =>
          cases hcc : convertConst n.rval typ.TypeOf with
          | mk v b =>
            cases b with
            | false =>
                exact absurd hs (by
                  simp [convertUntyped, hu, ht, h1, h2, convertStep, hrep, hcc])
            | true =>
                have hres : (convertUntyped n (some typ)).1
                    = (n.setRval v).setTyp typ := by
                  simp [convertUntyped, hu, ht, h1, h2, convertStep, hrep, hcc]
                refine ⟨Or.inl (by rw [hres]; simp [ht]), fun _ _ => ?_⟩
                rw [hres]
    · rw [Bool.not_eq_true] at h2
      by_cases h3 : isInterface typ = true
      · by_cases h4 : n.typ.isNil = true
        · have h7 : typ.isNil = false := by
            cases hb : typ.isNil
            · rfl
            · rw [hb, h4] at h1
              exact absurd h1 (by decide)
          have hres : convertUntyped n (some typ) = (n, none) := by
            simp [convertUntyped, hu, ht, h7, h2, h3, h4]
          exact ⟨Or.inr ⟨h4, by rw [hres]⟩,
            fun h2' _ => absurd h2' (by simp [h2])⟩
        · rw [Bool.not_eq_true] at h4
          by_cases h5 : decide (0 < n.typ.nmethods) = true
          · exact absurd hs (by
              simp [convertUntyped, hu, ht, h1, h2, h3, h4, h5])
          · rw [Bool.not_eq_true] at h5
            cases hrep : representable n n.typ.TypeOf with
            | some e =>
                exact absurd hs (by
                  simp [convertUntyped, hu, ht, h1, h2, h3, h4, h5,
                    convertStep, hrep])
            | none =>
                cases hcc : convertConst n.rval n.typ.TypeOf with
                | mk v b =>
                  cases b with
                  | false =>
                      exact absurd hs (by
                        simp [convertUntyped, hu, ht, h1, h2, h3, h4, h5,
                          convertStep, hrep, hcc])
                  | true =>
                      have hres : (convertUntyped n (some typ)).1
                          = (n.setRval v).setTyp n.typ.defaultType := by
                        simp [convertUntyped, hu, ht, h1, h2, h3, h4, h5,
                          convertStep, hrep, hcc]
                      refine ⟨Or.inl ?_,
                        fun h2' _ => absurd h2' (by simp [h2])⟩
                      rw [hres]
                      simp [IType.untyped_defaultType n.typ hu]
      · rw [Bool.not_eq_true] at h3
        by_cases h6 : (isArrayI typ || isMapI typ || isChanI typ
            || isFuncI typ || isPtrI typ) = true
        · by_cases h4 : n.typ.isNil = true
          · have h7 : typ.isNil = false := by
              cases hb : typ.isNil
              · rfl
              · rw [hb, h4] at h1
                exact absurd h1 (by decide)
            have hres : convertUntyped n (some typ) = (n, none) := by
              simp [convertUntyped, hu, ht, h7, h2, h3, h6, h4]
            exact ⟨Or.inr ⟨h4, by rw [hres]⟩,
              fun h2' _ => absurd h2' (by simp [h2])⟩
          · rw [Bool.not_eq_true] at h4
            exact absurd hs (by
              simp [convertUntyped, hu, ht, h1, h2, h3, h6, h4])
        · rw [Bool.not_eq_true] at h6
          exact absurd hs (by
            simp [convertUntyped, hu, ht, h1, h2, h3, h6])

/-- Witness for the amended C9: coercing the untyped integer constant 5
toward `int16` succeeds and clears the untyped flag. -/
theorem convertUntyped_success_untyped_flag_witness :
    (convertUntyped (constNode untypedInt (.int 5))
        (some { cat := .int16T })).1.typ.untyped = false := by
  have h := (convertUntyped_success_untyped_flag
    (constNode untypedInt (.int 5)) { cat := .int16T } rfl (by rfl)).1
  rcases h with h | h
  · exact h
  · exact absurd h.1 (by decide)

/-! ## C6 — widening between untyped numeric kinds -/

/-- C6: coercing an untyped numeric node toward an untyped numeric target
never fails, always selects the wider of the two kinds (in the kind order,
in which the untyped constant kinds int < rune < float64 < complex128 are
increasing), never narrows, and doing it a second time changes nothing. -/
theorem convertUntyped_untyped_widening (n : Node) (b : IType)
    (hn : n.typ.untyped = true) (hb : b.untyped = true)
    (h1 : isNumber n.typ.TypeOf = true) (h2 : isNumber b.TypeOf = true) :
    (convertUntyped n (some b)).2 = none
    ∧ kindOrd (convertUntyped n (some b)).1.typ.TypeOf
        = max (kindOrd n.typ.TypeOf) (kindOrd b.TypeOf)
    ∧ convertUntyped (convertUntyped n (some b)).1 (some b)
        = convertUntyped n (some b) := by
  by_cases hlt : kindOrd n.typ.TypeOf < kindOrd b.TypeOf
  · have hres : convertUntyped n (some b) = (n.setTyp b, none) := by
      simp [convertUntyped, hn, hb, h1, h2, hlt]
    rw [hres]
    refine ⟨rfl, ?_, ?_⟩
    · simp [Nat.max_eq_right (Nat.le_of_lt hlt)]
    · simp [convertUntyped, hb, h2, lt_irrefl]
  · have hres : convertUntyped n (some b) = (n, none) := by
      simp [convertUntyped, hn, hb, h1, h2, hlt]
    rw [hres]
    refine ⟨rfl, ?_, ?_⟩
    · simp [Nat.max_eq_left (Nat.le_of_not_lt hlt)]
    · simp [convertUntyped, hn, hb, h1, h2, hlt]

/-- Witness for C6: widening the untyped integer constant 1 toward the
untyped float kind succeeds, keeps the wider (float) kind, and is
idempotent. -/
theorem convertUntyped_untyped_widening_witness :
    (convertUntyped (constNode untypedInt (.int 1)) (some untypedFloat)).2
        = none
    ∧ kindOrd (convertUntyped (constNode untypedInt (.int 1))
          (some untypedFloat)).1.typ.TypeOf
        = max (kindOrd (constNode untypedInt (.int 1)).typ.TypeOf)
            (kindOrd untypedFloat.TypeOf)
    ∧ convertUntyped
          (convertUntyped (constNode untypedInt (.int 1))
            (some untypedFloat)).1 (some untypedFloat)
        = convertUntyped (constNode untypedInt (.int 1))
            (some untypedFloat) :=
  convertUntyped_untyped_widening (constNode untypedInt (.int 1))
    untypedFloat rfl rfl rfl rfl

/-! ## C3 — plain assignment with an untyped source -/

/-- The destination type a plain assignment checks against: the declared
type, forced to its default type unless the assignment sits inside a
constant declaration (spec §4.2). -/
def assignDestType (n dest : Node) : IType :=
  if n.ancKind = .constDecl then dest.typ else dest.typ.defaultType

/-- The coercion target for an untyped source (spec §4.2): the destination
type, except that a nil-typed or interface destination coerces the source to
the source's own default type. -/
def assignTarget (n dest src : Node) : IType :=
  if (assignDestType n dest).isNil || isInterface (assignDestType n dest)
  then src.typ.defaultType else assignDestType n dest

/-- C3: for a plain single assignment with an untyped source, the source is
coerced toward `assignTarget` (the destination type, or the source's own
default type when the destination is nil-typed or an interface); a coercion
error is returned as is, and otherwise the check succeeds exactly when the
narrowed source type is assignable to the destination type, failing with the
"cannot use type X as type Y in assignment" diagnostic. -/
theorem assignExpr_untyped_source (n dest src : Node)
    (ha : n.action = .aAssign) (hu : src.typ.untyped = true) :
    (∀ src' e,
        convertUntyped src (some (assignTarget n dest src)) = (src', some e) →
        (assignExpr n dest src).err = some e)
    ∧ (∀ src',
        convertUntyped src (some (assignTarget n dest src)) = (src', none) →
        (assignExpr n dest src).err
          = if src'.typ.assignableTo (assignDestType n dest) = true then none
            else some (cannotUseMsg src'.typ (assignDestType n dest))) := by
  by_cases hc : n.ancKind = .constDecl
  · constructor
    · intro src' e heq
      simp only [assignTarget, assignDestType, hc, if_true, ite_true,
        Bool.or_eq_true] at heq
      simp [assignExpr, ha, hu, hc, heq]
    · intro src' heq
      simp only [assignTarget, assignDestType, hc, if_true, ite_true,
        Bool.or_eq_true] at heq
      by_cases hass : src'.typ.assignableTo dest.typ = true
      · simp [assignExpr, ha, hu, hc, heq, assignDestType, hass]
      · rw [Bool.not_eq_true] at hass
        simp [assignExpr, ha, hu, hc, heq, assignDestType, hass]
  · constructor
    · intro src' e heq
      simp only [assignTarget, assignDestType, hc, if_false, ite_false,
        Bool.or_eq_true] at heq
      simp [assignExpr, ha, hu, hc, heq]
    · intro src' heq
      simp only [assignTarget, assignDestType, hc, if_false, ite_false,
        Bool.or_eq_true] at heq
      by_cases hass : src'.typ.assignableTo dest.typ.defaultType = true
      · simp [assignExpr, ha, hu, hc, heq, assignDestType, hass]
      · rw [Bool.not_eq_true] at hass
        simp [assignExpr, ha, hu, hc, heq, assignDestType, hass]

/-- Witness for C3: assigning the untyped integer constant 5 to an `int16`
variable succeeds (the coercion narrows, and `int16` is assignable to
itself). -/
theorem assignExpr_untyped_source_witness :
    (assignExpr (binNode .aAssign (identNode { cat := .int16T })
          (constNode untypedInt (.int 5)))
        (identNode { cat := .int16T }) (constNode untypedInt (.int 5))).err
      = none := by
  have h := (assignExpr_untyped_source
    (binNode .aAssign (identNode { cat := .int16T })
      (constNode untypedInt (.int 5)))
    (identNode { cat := .int16T }) (constNode untypedInt (.int 5))
    rfl rfl).2
    ((convertUntyped (constNode untypedInt (.int 5))
      (some (assignTarget
        (binNode .aAssign (identNode { cat := .int16T })
          (constNode untypedInt (.int 5)))
        (identNode { cat := .int16T }) (constNode untypedInt (.int 5))))).1)
    rfl
  exact h.trans (by rfl)

/-! ## C5 — comparison legality -/

/-- The nil type's category is not comparable. -/
theorem IType.isNil_not_comparable (t : IType) (h : t.isNil = true) :
    t.comparable = false := by
  have hcat : t.cat = Cat.nilT := by
    simpa [IType.isNil] using h
  simp [IType.comparable, hcat]

/-- The nil type's category is not ordered. -/
theorem IType.isNil_not_ordered (t : IType) (h : t.isNil = true) :
    t.ordered = false := by
  have hcat : t.cat = Cat.nilT := by
    simpa [IType.isNil] using h
  simp [IType.ordered, IType.TypeOf, hcat, isNumber, isInt, isFloat,
    isComplex, isString]

/-- C5: a comparison first requires mutual assignability in at least one
direction (else the "mismatched types" diagnostic); equality is then legal
iff both sides are comparable or one side is the nil value and the other's
category admits nil; ordering is legal iff both sides are ordered; and when
legality fails with exactly one nil operand, the diagnostic names the
non-nil operand's type. -/
theorem comparison_spec (n c0 c1 : Node) (rest : List Node)
    (hch : n.child = c0 :: c1 :: rest)
    (ha : isComparisonAction n.action = true) :
    (¬(c0.typ.assignableTo c1.typ = true ∨ c1.typ.assignableTo c0.typ = true) →
        comparison n = some (mismatchMsg c0.typ c1.typ))
    ∧ ((c0.typ.assignableTo c1.typ = true ∨ c1.typ.assignableTo c0.typ = true) →
        ((n.action = .aEqual ∨ n.action = .aNotEqual) →
            (comparison n = none ↔
              ((c0.typ.comparable = true ∧ c1.typ.comparable = true)
                ∨ (c0.typ.isNil = true ∧ c1.typ.hasNil = true)
                ∨ (c1.typ.isNil = true ∧ c0.typ.hasNil = true))))
        ∧ ((n.action = .aLower ∨ n.action = .aLowerEqual
              ∨ n.action = .aGreater ∨ n.action = .aGreaterEqual) →
            (comparison n = none ↔
              (c0.typ.ordered = true ∧ c1.typ.ordered = true)))
        ∧ (∀ e, comparison n = some e →
            ((c0.typ.isNil = true → c1.typ.isNil = false →
                e = cmpOpErrMsg n.action c1.typ)
             ∧ (c0.typ.isNil = false → c1.typ.isNil = true →
                e = cmpOpErrMsg n.action c0.typ)))) := by
  obtain ⟨k, a, t, r, ch, anc, nl, nr⟩ := n
  simp only [Node.child] at hch
  subst hch
  simp only [Node.action] at ha ⊢
  by_cases hm : (c0.typ.assignableTo c1.typ = true
      ∨ c1.typ.assignableTo c0.typ = true)
  · refine ⟨fun h => absurd hm h, fun _ => ⟨?_, ?_, ?_⟩⟩
    · rintro (hae | hae) <;> subst hae
      all_goals
        constructor
        · intro hnone
          by_cases h01 : (c0.typ.comparable && c1.typ.comparable) = true
          · simp only [Bool.and_eq_true] at h01
            exact Or.inl h01
          · by_cases h23 : (c0.typ.isNil && c1.typ.hasNil) = true
            · simp only [Bool.and_eq_true] at h23
              exact Or.inr (Or.inl h23)
            · by_cases h45 : (c1.typ.isNil && c0.typ.hasNil) = true
              · simp only [Bool.and_eq_true] at h45
                exact Or.inr (Or.inr h45)
              · rw [Bool.not_eq_true] at h01 h23 h45
                rcases hm with hmh | hmh <;>
                  exact absurd hnone (by
                    simp [comparison, Node.child, Node.action, hmh,
                      h01, h23, h45])
        · intro hP
          rcases hm with hmh | hmh <;>
            rcases hP with ⟨hpa, hpb⟩ | ⟨hpa, hpb⟩ | ⟨hpa, hpb⟩ <;>
              simp [comparison, Node.child, Node.action, hmh, hpa, hpb]
    · rintro (hae | hae | hae | hae) <;> subst hae
      all_goals
        constructor
        · intro hnone
          by_cases hok : (c0.typ.ordered && c1.typ.ordered) = true
          · simpa only [Bool.and_eq_true] using hok
          · rw [Bool.not_eq_true] at hok
            rcases hm with hmh | hmh <;>
              exact absurd hnone (by
                simp [comparison, Node.child, Node.action, hmh, hok])
        · rintro ⟨hpa, hpb⟩
          rcases hm with hmh | hmh <;>
            simp [comparison, Node.child, Node.action, hmh, hpa, hpb]
    · intro e he
      cases a <;> try exact absurd ha (by decide)
      all_goals try
        constructor
        · intro h0 h1
          have hc0 := IType.isNil_not_comparable c0.typ h0
          by_cases hHN : c1.typ.hasNil = true
          · rcases hm with hmh | hmh <;>
              simp [comparison, Node.child, Node.action, hmh, hc0,
                h0, h1, hHN] at he
          · rw [Bool.not_eq_true] at hHN
            rcases hm with hmh | hmh <;>
            · simp [comparison, Node.child, Node.action, hmh, hc0,
                h0, h1, hHN] at he
              exact he.symm
        · intro h0 h1
          have hc1 := IType.isNil_not_comparable c1.typ h1
          by_cases hHN : c0.typ.hasNil = true
          · rcases hm with hmh | hmh <;>
              simp [comparison, Node.child, Node.action, hmh, hc1,
                h0, h1, hHN] at he
          · rw [Bool.not_eq_true] at hHN
            rcases hm with hmh | hmh <;>
            · simp [comparison, Node.child, Node.action, hmh, hc1,
                h0, h1, hHN] at he
              exact he.symm
      all_goals
        constructor
        · intro h0 h1
          have ho0 := IType.isNil_not_ordered c0.typ h0
          rcases hm with hmh | hmh <;>
          · simp [comparison, Node.child, Node.action, hmh, ho0, h0] at he
            exact he.symm
        · intro h0 h1
          have ho1 := IType.isNil_not_ordered c1.typ h1
          rcases hm with hmh | hmh <;>
          · simp [comparison, Node.child, Node.action, hmh, ho1, h0] at he
            exact he.symm
  · push_neg at hm
    obtain ⟨hx, hy⟩ := hm
    simp only [ne_eq, Bool.not_eq_true] at hx hy
    refine ⟨fun _ => by simp [comparison, Node.child, Node.action, hx, hy],
      fun hm' => absurd hm' (by simp [hx, hy])⟩

/-- Witness for C5: equality between the nil literal and a pointer-typed
operand passes the comparison check. -/
theorem comparison_spec_witness :
    comparison (binNode .aEqual nilLitNode (identNode { cat := .ptrT }))
      = none := by
  have h := ((comparison_spec
      (binNode .aEqual nilLitNode (identNode { cat := .ptrT }))
      nilLitNode (identNode { cat := .ptrT }) [] rfl rfl).2
      (Or.inl (by rfl))).1 (Or.inl rfl)
  exact h.mpr (Or.inr (Or.inl ⟨rfl, rfl⟩))

/-! ## C4 — addressability -/

/-- The walk of the address-of checker succeeds exactly on the operands the
spec describes as addressable: those whose unwrapping chain ends in a
composite literal or an identifier. -/
theorem addrWalk_iff (c : Node) : addrWalk c = none ↔ Addressable c := by
  induction c using addrWalk.induct with
  | case1 a t r anc nl nr c tail ih =>
      simp only [addrWalk]
      rw [ih]
      constructor
      · intro h
        exact Addressable.paren _ c rfl rfl h
      · intro h
        cases h with
        | paren _ c2 hk hc hadd =>
            simp only [Node.child, List.head?_cons, Option.some.injEq] at hc
            subst hc
            exact hadd
        | composite _ hk => exact absurd hk (by simp [Node.kind])
        | ident _ hk => exact absurd hk (by simp [Node.kind])
        | sel _ _ hk _ _ => exact absurd hk (by simp [Node.kind])
        | index _ _ hk _ _ _ => exact absurd hk (by simp [Node.kind])
  | case2 a t r anc nl nr =>
      simp only [addrWalk]
      constructor
      · intro h
        cases h
      · intro h
        cases h with
        | paren _ c2 hk hc hadd => simp [Node.child] at hc
        | composite _ hk => exact absurd hk (by simp [Node.kind])
        | ident _ hk => exact absurd hk (by simp [Node.kind])
        | sel _ _ hk _ _ => exact absurd hk (by simp [Node.kind])
        | index _ _ hk _ _ _ => exact absurd hk (by simp [Node.kind])
  | case3 a t r anc nl nr hd c tail ih =>
      simp only [addrWalk]
      rw [ih]
      constructor
      · intro h
        exact Addressable.sel _ c rfl rfl h
      · intro h
        cases h with
        | sel _ c2 hk hc hadd =>
            simp only [Node.child, List.get?] at hc
            simp only [Option.some.injEq] at hc
            subst hc
            exact hadd
        | composite _ hk => exact absurd hk (by simp [Node.kind])
        | ident _ hk => exact absurd hk (by simp [Node.kind])
        | paren _ _ hk _ _ => exact absurd hk (by simp [Node.kind])
        | index _ _ hk _ _ _ => exact absurd hk (by simp [Node.kind])
  | case4 a t r anc nl nr ch hshape =>
      simp only [addrWalk]
      constructor
      · intro h
        cases h
      · intro h
        cases h with
        | sel _ c2 hk hc hadd =>
            simp only [Node.child] at hc
            match ch, hshape, hc with
            | [], _, hc => simp [List.get?] at hc
            | [x], _, hc => simp [List.get?] at hc
            | x :: y :: tl, hshape, _ => exact absurd rfl (hshape x y tl)
        | composite _ hk => exact absurd hk (by simp [Node.kind])
        | ident _ hk => exact absurd hk (by simp [Node.kind])
        | paren _ _ hk _ _ => exact absurd hk (by simp [Node.kind])
        | index _ _ hk _ _ _ => exact absurd hk (by simp [Node.kind])
  | case5 a t r anc nl nr c tail harr ih =>
      simp only [addrWalk, harr, if_true]
      rw [ih]
      constructor
      · intro h
        exact Addressable.index _ c rfl rfl harr h
      · intro h
        cases h with
        | index _ c2 hk hc harr2 hadd =>
            simp only [Node.child, List.head?_cons, Option.some.injEq] at hc
            subst hc
            exact hadd
        | composite _ hk => exact absurd hk (by simp [Node.kind])
        | ident _ hk => exact absurd hk (by simp [Node.kind])
        | paren _ _ hk _ _ => exact absurd hk (by simp [Node.kind])
        | sel _ _ hk _ _ => exact absurd hk (by simp [Node.kind])
  | case6 a t r anc nl nr c tail harr =>
      rw [Bool.not_eq_true] at harr
      simp only [addrWalk, harr]
      constructor
      · intro h
        cases h
      · intro h
        cases h with
        | index _ c2 hk hc harr2 hadd =>
            simp only [Node.child, List.head?_cons, Option.some.injEq] at hc
            subst hc
            rw [harr] at harr2
            cases harr2
        | composite _ hk => exact absurd hk (by simp [Node.kind])
        | ident _ hk => exact absurd hk (by simp [Node.kind])
        | paren _ _ hk _ _ => exact absurd hk (by simp [Node.kind])
        | sel _ _ hk _ _ => exact absurd hk (by simp [Node.kind])
  | case7 a t r anc nl nr =>
      simp only [addrWalk]
      constructor
      · intro h
        cases h
      · intro h
        cases h with
        | index _ c2 hk hc harr2 hadd => simp [Node.child] at hc
        | composite _ hk => exact absurd hk (by simp [Node.kind])
        | ident _ hk => exact absurd hk (by simp [Node.kind])
        | paren _ _ hk _ _ => exact absurd hk (by simp [Node.kind])
        | sel _ _ hk _ _ => exact absurd hk (by simp [Node.kind])
  | case8 a t r anc nl nr ch =>
      simp only [addrWalk]
      exact iff_of_true trivial (Addressable.composite _ rfl)
  | case9 a t r anc nl nr ch =>
      simp only [addrWalk]
      exact iff_of_true trivial (Addressable.ident _ rfl)
  | case10 k a t r anc nl nr ch hpc hpn hsc hs hic hin hcl hid =>
      simp only [addrWalk]
      constructor
      · intro h
        cases h
      · intro h
        cases h with
        | composite _ hk =>
            simp only [Node.kind] at hk
            exact absurd (hcl hk) id
        | ident _ hk =>
            simp only [Node.kind] at hk
            exact absurd (hid hk) id
        | sel _ _ hk _ _ =>
            simp only [Node.kind] at hk
            exact absurd (hs hk) id
        | paren _ c2 hk hc _ =>
            simp only [Node.kind] at hk
            simp only [Node.child] at hc
            match ch, hpc, hpn, hc with
            | [], _, hpn, hc => simp [List.head?_nil] at hc
            | x :: tl, hpc, _, _ => exact absurd rfl (hpc x tl hk)
        | index _ c2 hk hc _ _ =>
            simp only [Node.kind] at hk
            simp only [Node.child] at hc
            match ch, hic, hin, hc with
            | [], _, hin, hc => simp [List.head?_nil] at hc
            | x :: tl, hic, _, _ => exact absurd rfl (hic x tl hk)

/-- C4: the address-of checker succeeds if and only if its operand is
addressable in the sense of the spec's unwrapping description. -/
theorem addressExpr_iff_addressable (n c0 : Node) (rest : List Node)
    (hch : n.child = c0 :: rest) :
    (addressExpr n = none ↔ Addressable c0) := by
  simp only [addressExpr, hch]
  exact addrWalk_iff c0

/-- Witness for C4: taking the address of a parenthesized identifier
succeeds, and the identifier chain is addressable. -/
theorem addressExpr_iff_addressable_witness :
    addressExpr (Node.mk .otherKind .aNop untypedInt none
        [Node.mk .parenExpr .aNop { cat := .intT } none
          [identNode { cat := .intT }] .otherKind 0 0] .otherKind 0 0)
      = none ↔
    Addressable (Node.mk .parenExpr .aNop { cat := .intT } none
        [identNode { cat := .intT }] .otherKind 0 0) :=
  addressExpr_iff_addressable _ _ [] rfl

/-! ## C7 — shift operands -/

/-- The behaviour of the shift checker on the count operand once the left
operand has been accepted (spec §4.5): an untyped count is coerced toward
the default unsigned kind, a coercion failure or a non-integer concrete kind
is the "shift count type ..., must be integer" error, and a concrete integer
count is accepted. -/
def shiftCountSpec (n c1 : Node) : Prop :=
  (c1.typ.untyped = true →
      (∀ c1' e, convertUntyped c1 (some uintIType) = (c1', some e) →
          (shift n).2 = some (shiftCountMsg c1'.typ))
      ∧ (∀ c1', convertUntyped c1 (some uintIType) = (c1', none) →
          (shift n).2 = none))
  ∧ (c1.typ.untyped = false → isInt c1.typ.TypeOf = true →
      (shift n).2 = none)
  ∧ (c1.typ.untyped = false → isInt c1.typ.TypeOf = false →
      (shift n).2 = some (shiftCountMsg c1.typ))

/-- C7: the left operand of a shift must be an untyped constant convertible
to an integer constant (else "shift of type") or have a concrete integer
type; the right operand is then checked as `shiftCountSpec` describes. -/
theorem shift_spec (n c0 c1 : Node) (rest : List Node)
    (hch : n.child = c0 :: c1 :: rest) :
    (∀ v, c0.typ.untyped = true → c0.rval = some (.cval v) →
        (CVal.toInt v).kind ≠ CKind.int → isInt c0.typ.TypeOf = false →
        (shift n).2 = some (shiftOfTypeMsg c0.typ))
    ∧ (c0.typ.untyped = false → isInt c0.typ.TypeOf = false →
        (shift n).2 = some (shiftOfTypeMsg c0.typ))
    ∧ (∀ v, c0.typ.untyped = true → c0.rval = some (.cval v) →
        (CVal.toInt v).kind = CKind.int → shiftCountSpec n c1)
    ∧ (c0.typ.untyped = false → isInt c0.typ.TypeOf = true →
        shiftCountSpec n c1) := by
  obtain ⟨k, a, t, r, ch, anc, nl, nr⟩ := n
  simp only [Node.child] at hch
  subst hch
  refine ⟨?_, ?_, ?_, ?_⟩
  · intro v hu hv hk hti
    have hk' : decide ((CVal.toInt v).kind = CKind.int) = false :=
      decide_eq_false hk
    simp [shift, Node.child, hu, hv, hk', hti]
  · intro hu hti
    simp [shift, Node.child, hu, hti]
  · intro v hu hv hk
    have hk' : decide ((CVal.toInt v).kind = CKind.int) = true :=
      decide_eq_true hk
    refine ⟨?_, ?_, ?_⟩
    · intro hc1
      constructor
      · intro c1' e heq
        simp [shift, Node.child, hu, hv, hk', hc1, heq]
      · intro c1' heq
        simp [shift, Node.child, hu, hv, hk', hc1, heq]
    · intro hc1 ht1
      simp [shift, Node.child, hu, hv, hk', hc1, ht1]
    · intro hc1 ht1
      simp [shift, Node.child, hu, hv, hk', hc1, ht1]
  · intro hu hti
    refine ⟨?_, ?_, ?_⟩
    · intro hc1
      constructor
      · intro c1' e heq
        simp [shift, Node.child, hu, hti, hc1, heq]
      · intro c1' heq
        simp [shift, Node.child, hu, hti, hc1, heq]
    · intro hc1 ht1
      simp [shift, Node.child, hu, hti, hc1, ht1]
    · intro hc1 ht1
      simp [shift, Node.child, hu, hti, hc1, ht1]

/-- A shift of an untyped integer constant by an untyped integer count. -/
def shlUntypedNode : Node :=
  binNode .aShl (constNode untypedInt (.int 1)) (constNode untypedInt (.int 3))

/-- Witness for C7: shifting the untyped constant 1 by the untyped count 3
passes the check (spec §8, scenario 3). -/
theorem shift_spec_witness : (shift shlUntypedNode).2 = none := by
  have h := ((shift_spec shlUntypedNode (constNode untypedInt (.int 1))
      (constNode untypedInt (.int 3)) [] rfl).2.2.1 (.int 1) rfl rfl rfl).1
      rfl
  exact h.2 ((convertUntyped (constNode untypedInt (.int 3))
    (some uintIType)).1) rfl

/-! ## C10 — the shift checker mutates before it validates -/

/-- C10: for an untyped left operand the shift checker overwrites the
operand's constant slot with its integer conversion (possibly Unknown)
before validating it, so when the "shift of type" error is returned the
mutated slot is left behind rather than the original value. -/
theorem shift_overwrites_rval_on_error (n c0 c1 : Node) (rest : List Node)
    (v : CVal) (hch : n.child = c0 :: c1 :: rest)
    (hu : c0.typ.untyped = true) (hv : c0.rval = some (.cval v))
    (hk : (CVal.toInt v).kind ≠ CKind.int)
    (hti : isInt c0.typ.TypeOf = false) :
    (shift n).2 = some (shiftOfTypeMsg c0.typ)
    ∧ (shift n).1.child
        = c0.setRval (some (.cval (CVal.toInt v))) :: c1 :: rest := by
  obtain ⟨k, a, t, r, ch, anc, nl, nr⟩ := n
  simp only [Node.child] at hch
  subst hch
  have hk' : decide ((CVal.toInt v).kind = CKind.int) = false :=
    decide_eq_false hk
  constructor
  · simp [shift, Node.child, hu, hv, hk', hti]
  · simp [shift, Node.child, Node.setChild, hu, hv, hk', hti]

/-- A shift whose untyped left operand holds a complex constant that is not
convertible to an integer. -/
def shlComplexNode : Node :=
  binNode .aShl (constNode untypedComplex (.complex 0 1))
    (constNode untypedInt (.int 3))

/-- Witness for C10: the complex-valued left operand makes the shift fail
with "shift of type", and its constant slot now holds the Unknown result of
the integer conversion instead of the original complex value. -/
theorem shift_overwrites_rval_on_error_witness :
    ((shift shlComplexNode).2
        = some (shiftOfTypeMsg (constNode untypedComplex (.complex 0 1)).typ)
      ∧ (shift shlComplexNode).1.child
          = (constNode untypedComplex (.complex 0 1)).setRval
              (some (.cval (CVal.toInt (.complex 0 1))))
            :: constNode untypedInt (.int 3) :: [])
    ∧ CVal.toInt (.complex 0 1) ≠ CVal.complex 0 1 :=
  ⟨shift_overwrites_rval_on_error shlComplexNode
      (constNode untypedComplex (.complex 0 1))
      (constNode untypedInt (.int 3)) [] (.complex 0 1) rfl rfl rfl
      (by decide) rfl,
    by decide⟩

end Interp
